import Mathlib

/-!
Verification of the diet-builder aggregation core of the nutrition
platform (src/unnamed/part_000, src/app/page.js, src/unnamed/part_001).

The embedding models JavaScript numbers as exact rationals extended with
NaN and the two infinities, and translates the pure state-transition and
derivation functions of the page component: the amount-fact cache and its
fetch effect, the spreadsheet rows and per-column totals, the target
store, the over-max evaluator, the rounding helper, and the diet-ledger
actions.
-/

namespace Nutrition

abbrev NutrientId := String
abbrev FoodId := String

/-- A JavaScript number: a finite rational, NaN, or a signed infinity.
Floating-point precision is abstracted to exact rationals. -/
inductive JSNum where
  | fin (q : ℚ)
  | nan
  | inf
  | ninf
deriving DecidableEq

/-- A raw JS value handed to `Number(...)`: a number, `null`, `undefined`,
a string that parses to a finite number, a string that does not parse,
or the strings "Infinity" / "-Infinity". -/
inductive JSInput where
  | numv (n : JSNum)
  | nullv
  | undefv
  | strFin (q : ℚ)
  | strNaN
  | strInf
  | strNinf
deriving DecidableEq

/-- JS `Number(x)` (ToNumber) on the value shapes above.  Note that
`Number(null) = 0` while `Number(undefined) = NaN`. -/
def toNumber : JSInput → JSNum
  | .numv n => n
  | .nullv => .fin 0
  | .undefv => .nan
  | .strFin q => .fin q
  | .strNaN => .nan
  | .strInf => .inf
  | .strNinf => .ninf

/-- JS truthiness of a number: `0` and `NaN` are falsy. -/
def JSNum.truthy : JSNum → Bool
  | .fin q => q ≠ 0
  | .nan => false
  | .inf => true
  | .ninf => true

/-- JS `x || 0` on a number. -/
def orZero (x : JSNum) : JSNum := if x.truthy then x else .fin 0

/-- The finite value of a JS number, `0` for NaN and the infinities. -/
def JSNum.toQ : JSNum → ℚ
  | .fin q => q
  | _ => 0

/-- JS addition. -/
def JSNum.add : JSNum → JSNum → JSNum
  | .fin a, .fin b => .fin (a + b)
  | .nan, _ => .nan
  | _, .nan => .nan
  | .inf, .ninf => .nan
  | .ninf, .inf => .nan
  | .inf, _ => .inf
  | _, .inf => .inf
  | .ninf, _ => .ninf
  | _, .ninf => .ninf

/-- JS multiplication. -/
def JSNum.mul : JSNum → JSNum → JSNum
  | .fin a, .fin b => .fin (a * b)
  | .nan, _ => .nan
  | _, .nan => .nan
  | .inf, .inf => .inf
  | .inf, .ninf => .ninf
  | .ninf, .inf => .ninf
  | .ninf, .ninf => .inf
  | .inf, .fin b => if 0 < b then .inf else if b < 0 then .ninf else .nan
  | .fin a, .inf => if 0 < a then .inf else if a < 0 then .ninf else .nan
  | .ninf, .fin b => if 0 < b then .ninf else if b < 0 then .inf else .nan
  | .fin a, .ninf => if 0 < a then .ninf else if a < 0 then .inf else .nan

/-- JS division by the literal `100`. -/
def JSNum.div100 : JSNum → JSNum
  | .fin a => .fin (a / 100)
  | .nan => .nan
  | .inf => .inf
  | .ninf => .ninf

/-- JS `n > m` where the right operand is a finite number. -/
def JSNum.gtQ : JSNum → ℚ → Bool
  | .fin a, m => decide (m < a)
  | .nan, _ => false
  | .inf, _ => true
  | .ninf, _ => false

/-- `safeNum` from part_000: `Number(x)` when finite, otherwise `null`. -/
def safeNum (x : JSInput) : Option ℚ :=
  match toNumber x with
  | .fin q => some q
  | _ => none

theorem orZero_eq_fin_toQ (x : JSNum) (h1 : x ≠ .inf) (h2 : x ≠ .ninf) :
    orZero x = .fin x.toQ := by
  cases x with
  | fin q =>
    by_cases hq : q = 0
    · simp [orZero, JSNum.truthy, JSNum.toQ, hq]
    · simp [orZero, JSNum.truthy, JSNum.toQ, hq]
  | nan => simp [orZero, JSNum.truthy, JSNum.toQ]
  | inf => exact absurd rfl h1
  | ninf => exact absurd rfl h2

/-! ## Data model -/

/-- A row of the `nutrients` table as delivered to the client.  The
optional columns arrive as JS values (`null` when unset in the DB). -/
structure Nutrient where
  id : NutrientId
  key : String
  display_name : String
  unit : String
  info_text : Option String
  default_goal : JSInput
  default_max : JSInput
deriving DecidableEq

/-- A row of `foods_global`. -/
structure Food where
  id : FoodId
  name : String
  price_per_100g : JSInput
deriving DecidableEq

/-- A row of `food_nutrients_global` (an amount fact). -/
structure FactRow where
  food_id : FoodId
  nutrient_id : NutrientId
  amount_per_100g : JSNum
deriving DecidableEq

/-- A diet entry as stored in the `dietRows` state: `{ id, food_id, name,
grams }`.  `grams` is a JS number because `updateDietRowGrams` stores
`Number(input)`, which may be NaN mid-edit. -/
structure DietRow where
  id : String
  food_id : FoodId
  name : String
  grams : JSNum
deriving DecidableEq

/-- A per-nutrient target `{ goal: number|null, max: number|null }`.  Both
fields are produced by `safeNum`, hence finite-or-null. -/
structure Target where
  goal : Option ℚ
  max : Option ℚ
deriving DecidableEq

/-! ## Amount-fact lookup and aggregation

`amount100ByFoodAndNutrient` is a two-level `Map` (food then nutrient)
whose entries are `Number(r.amount_per_100g) || 0`, later rows
overwriting earlier ones.  The only read is
`foodMap?.get(nid) ?? 0` in `computedDietRows`, so a missing food map
and a missing nutrient entry both read as `0`; the lookup below encodes
exactly that observable behaviour (last matching row wins). -/

/-- Per-100g amount for a (food, nutrient) pair from the cached rows,
`0` when no row matches; the value stored by the map construction is
`Number(r.amount_per_100g) || 0`. -/
def lookupAmount (facts : List FactRow) (fid : FoodId) (nid : NutrientId) : JSNum :=
  (facts.foldl
    (fun acc r =>
      if r.food_id = fid ∧ r.nutrient_id = nid then some (orZero r.amount_per_100g) else acc)
    none).getD (.fin 0)

/-- A computed spreadsheet row: the original entry with `grams` coerced by
`Number(row.grams) || 0` and a `values` object holding one cell per shown
nutrient id. -/
structure ComputedRow where
  id : String
  food_id : FoodId
  name : String
  grams : JSNum
  values : NutrientId → Option JSNum

/-- `computedDietRows` from part_000: for each entry and each shown
nutrient, `values[nid] = (per100 * grams) / 100`. -/
def computedDietRows (dietRows : List DietRow) (facts : List FactRow)
    (shown : List NutrientId) : List ComputedRow :=
  dietRows.map (fun row =>
    let grams := orZero row.grams
    { id := row.id
      food_id := row.food_id
      name := row.name
      grams := grams
      values := fun nid =>
        if nid ∈ shown then
          some (((lookupAmount facts row.food_id nid).mul grams).div100)
        else none })

/-- JS `vals[nid] || 0`: a missing key reads as `undefined`, which is
falsy, so both a missing key and a falsy value give `0`. -/
def jsIndexOr0 (vals : NutrientId → Option JSNum) (nid : NutrientId) : JSNum :=
  match vals nid with
  | some v => orZero v
  | none => .fin 0

/-- The initialisation loop of `totalsByNutrientId`:
`for (const nid of shownNutrientIds) totals[nid] = 0`. -/
def totalsInit (shown : List NutrientId) : NutrientId → Option JSNum :=
  shown.foldl (fun ts nid => fun k => if k = nid then some (.fin 0) else ts k)
    (fun _ => none)

/-- The accumulation loop of `totalsByNutrientId` for one computed row:
`for (const nid of shownNutrientIds) totals[nid] += Number(row.values[nid] || 0)`. -/
def addRowToTotals (shown : List NutrientId) (totals : NutrientId → Option JSNum)
    (row : ComputedRow) : NutrientId → Option JSNum :=
  shown.foldl
    (fun ts nid => fun k =>
      if k = nid then (ts k).map (fun t => t.add (jsIndexOr0 row.values k)) else ts k)
    totals

/-- `totalsByNutrientId` from part_000. -/
def totalsByNutrientId (shown : List NutrientId) (rows : List ComputedRow) :
    NutrientId → Option JSNum :=
  rows.foldl (addRowToTotals shown) (totalsInit shown)

/-- Reference summand: the resolved per-100g amount of a (food, nutrient)
pair as a rational, `0` when no fact row matches (first match; under
key-uniqueness this coincides with the cache's last-match lookup). -/
def specAmount (facts : List FactRow) (fid : FoodId) (nid : NutrientId) : ℚ :=
  match facts.find? (fun r => r.food_id = fid ∧ r.nutrient_id = nid) with
  | some r => (orZero r.amount_per_100g).toQ
  | none => 0

/-- Reference total: `Σ over entries of amount(e.food_id, nid) * e.grams / 100`. -/
def specTotal (entries : List DietRow) (facts : List FactRow) (nid : NutrientId) : ℚ :=
  (entries.map (fun e => specAmount facts e.food_id nid * e.grams.toQ / 100)).sum

/-! ## Fold lemmas for the totals object -/

theorem orZero_fin (q : ℚ) : orZero (.fin q) = .fin q := by
  by_cases h : q = 0 <;> simp [orZero, JSNum.truthy, h]

theorem initLoop_apply (shown : List NutrientId) (acc : NutrientId → Option JSNum)
    (nid : NutrientId) :
    (shown.foldl (fun ts n => fun k => if k = n then some (.fin 0) else ts k) acc) nid
      = if nid ∈ shown then some (.fin 0) else acc nid := by
  induction shown generalizing acc with
  | nil => simp
  | cons a tl ih =>
    simp only [List.foldl_cons]
    rw [ih]
    by_cases h : nid ∈ tl
    · simp [h]
    · by_cases hn : nid = a
      · simp [h, hn]
      · simp [h, hn]

theorem totalsInit_apply (shown : List NutrientId) (nid : NutrientId) :
    totalsInit shown nid = if nid ∈ shown then some (.fin 0) else none := by
  unfold totalsInit
  rw [initLoop_apply]

theorem addLoop_not_mem (shown : List NutrientId) (row : ComputedRow)
    (ts : NutrientId → Option JSNum) (nid : NutrientId) (h : nid ∉ shown) :
    (shown.foldl
      (fun ts n => fun k =>
        if k = n then (ts k).map (fun t => JSNum.add t (jsIndexOr0 row.values k)) else ts k)
      ts) nid = ts nid := by
  induction shown generalizing ts with
  | nil => rfl
  | cons a tl ih =>
    simp only [List.foldl_cons]
    rw [ih _ (fun hx => h (List.mem_cons_of_mem a hx))]
    exact if_neg (fun hn => h (List.mem_cons.mpr (Or.inl hn)))

theorem addLoop_mem (shown : List NutrientId) (row : ComputedRow)
    (ts : NutrientId → Option JSNum) (nid : NutrientId)
    (hnd : shown.Nodup) (h : nid ∈ shown) :
    (shown.foldl
      (fun ts n => fun k =>
        if k = n then (ts k).map (fun t => JSNum.add t (jsIndexOr0 row.values k)) else ts k)
      ts) nid
      = (ts nid).map (fun t => JSNum.add t (jsIndexOr0 row.values nid)) := by
  revert hnd h
  induction shown generalizing ts with
  | nil =>
    intro _ h
    cases h
  | cons a tl ih =>
    intro hnd h
    have hnd2 := List.nodup_cons.mp hnd
    simp only [List.foldl_cons]
    by_cases hn : nid = a
    · subst hn
      rw [addLoop_not_mem tl row _ nid hnd2.1]
      simp
    · have hm : nid ∈ tl := (List.mem_cons.mp h).resolve_left hn
      rw [ih _ hnd2.2 hm]
      simp only [if_neg hn]

theorem addRowToTotals_mem (shown : List NutrientId) (hnd : shown.Nodup)
    (ts : NutrientId → Option JSNum) (row : ComputedRow) (nid : NutrientId)
    (h : nid ∈ shown) :
    addRowToTotals shown ts row nid
      = (ts nid).map (fun t => JSNum.add t (jsIndexOr0 row.values nid)) := by
  unfold addRowToTotals
  exact addLoop_mem shown row ts nid hnd h

theorem totalsByNutrientId_apply (shown : List NutrientId) (rows : List ComputedRow)
    (nid : NutrientId) (hnd : shown.Nodup) (h : nid ∈ shown) :
    totalsByNutrientId shown rows nid
      = some (rows.foldl (fun t row => JSNum.add t (jsIndexOr0 row.values nid)) (.fin 0)) := by
  suffices H : ∀ (g : NutrientId → Option JSNum) (t0 : JSNum), g nid = some t0 →
      (rows.foldl (addRowToTotals shown) g) nid
        = some (rows.foldl (fun t row => JSNum.add t (jsIndexOr0 row.values nid)) t0) by
    have := H (totalsInit shown) (.fin 0) (by rw [totalsInit_apply]; simp [h])
    exact this
  intro g t0 hg
  induction rows generalizing g t0 with
  | nil => simpa using hg
  | cons r tl ih =>
    simp only [List.foldl_cons]
    apply ih
    rw [addRowToTotals_mem shown hnd g r nid h, hg]
    rfl

/-! ## The cache lookup agrees with the reference amount -/

theorem lookup_foldl_nomatch (facts : List FactRow) (fid : FoodId) (nid : NutrientId)
    (acc : Option JSNum)
    (h : ∀ b ∈ facts, ¬(b.food_id = fid ∧ b.nutrient_id = nid)) :
    facts.foldl
      (fun acc r =>
        if r.food_id = fid ∧ r.nutrient_id = nid then some (orZero r.amount_per_100g) else acc)
      acc = acc := by
  induction facts generalizing acc with
  | nil => rfl
  | cons b tl ih =>
    simp only [List.foldl_cons]
    rw [if_neg (h b (List.mem_cons_self b tl))]
    exact ih _ (fun x hx => h x (List.mem_cons_of_mem b hx))

theorem lookupAmount_eq_spec (facts : List FactRow) (fid : FoodId) (nid : NutrientId)
    (ha : ∀ r ∈ facts, r.amount_per_100g ≠ .inf ∧ r.amount_per_100g ≠ .ninf)
    (hu : facts.Pairwise
      (fun a b => ¬(a.food_id = b.food_id ∧ a.nutrient_id = b.nutrient_id))) :
    lookupAmount facts fid nid = .fin (specAmount facts fid nid) := by
  induction facts with
  | nil => rfl
  | cons r tl ih =>
    have hu2 := List.pairwise_cons.mp hu
    by_cases hm : r.food_id = fid ∧ r.nutrient_id = nid
    · have hno : ∀ b ∈ tl, ¬(b.food_id = fid ∧ b.nutrient_id = nid) := by
        intro b hb hbm
        exact hu2.1 b hb ⟨hm.1.trans hbm.1.symm, hm.2.trans hbm.2.symm⟩
      have hfin := ha r (List.mem_cons_self r tl)
      have hspec : specAmount (r :: tl) fid nid = (orZero r.amount_per_100g).toQ := by
        unfold specAmount
        rw [List.find?_cons_of_pos _ (by simpa using hm)]
      unfold lookupAmount
      simp only [List.foldl_cons, if_pos hm]
      rw [lookup_foldl_nomatch tl fid nid _ hno, hspec,
        orZero_eq_fin_toQ r.amount_per_100g hfin.1 hfin.2]
      rfl
    · have step1 : lookupAmount (r :: tl) fid nid = lookupAmount tl fid nid := by
        unfold lookupAmount
        simp only [List.foldl_cons, if_neg hm]
      have step2 : specAmount (r :: tl) fid nid = specAmount tl fid nid := by
        unfold specAmount
        rw [List.find?_cons_of_neg _ (by simpa using hm)]
      rw [step1, step2]
      exact ih (fun x hx => ha x (List.mem_cons_of_mem r hx)) hu2.2

/-! ## Claim C1 -/

theorem foldl_add_fin {α : Type} (l : List α) (f : α → JSNum) (v : α → ℚ)
    (hf : ∀ x ∈ l, f x = .fin (v x)) (t0 : ℚ) :
    l.foldl (fun t x => JSNum.add t (f x)) (.fin t0) = .fin (t0 + (l.map v).sum) := by
  induction l generalizing t0 with
  | nil => simp
  | cons a tl ih =>
    simp only [List.foldl_cons, List.map_cons, List.sum_cons]
    rw [hf a (List.mem_cons_self a tl)]
    have hstep : JSNum.add (.fin t0) (.fin (v a)) = .fin (t0 + v a) := rfl
    rw [hstep, ih (fun x hx => hf x (List.mem_cons_of_mem a hx)) (t0 + v a), add_assoc]

/-- C1: for every list of diet entries and every visible nutrient column,
the computed per-column total equals the sum over all current entries of
`amountFact(entry.foodId, nutrientId) * entry.grams / 100`, a pair with no
resolved amount fact contributing `0`.  Hypotheses: the column list has no
duplicates, grams and stored amounts are not infinities (NaN is fine: both
sides coerce it to `0`), and the fact table has unique
(food, nutrient) keys. -/
theorem totals_match_spec (entries : List DietRow) (facts : List FactRow)
    (shown : List NutrientId) (nid : NutrientId)
    (hmem : nid ∈ shown) (hnd : shown.Nodup)
    (hg : ∀ e ∈ entries, e.grams ≠ .inf ∧ e.grams ≠ .ninf)
    (ha : ∀ r ∈ facts, r.amount_per_100g ≠ .inf ∧ r.amount_per_100g ≠ .ninf)
    (hu : facts.Pairwise
      (fun a b => ¬(a.food_id = b.food_id ∧ a.nutrient_id = b.nutrient_id))) :
    totalsByNutrientId shown (computedDietRows entries facts shown) nid
      = some (.fin (specTotal entries facts nid)) := by
  rw [totalsByNutrientId_apply shown _ nid hnd hmem]
  have hcell : ∀ e ∈ entries,
      jsIndexOr0
        (fun k => if k ∈ shown then
          some (((lookupAmount facts e.food_id k).mul (orZero e.grams)).div100) else none)
        nid
        = .fin (specAmount facts e.food_id nid * e.grams.toQ / 100) := by
    intro e he
    unfold jsIndexOr0
    simp only [if_pos hmem]
    rw [lookupAmount_eq_spec facts e.food_id nid ha hu,
      orZero_eq_fin_toQ e.grams (hg e he).1 (hg e he).2]
    show orZero (.fin (specAmount facts e.food_id nid * e.grams.toQ / 100)) = _
    rw [orZero_fin]
  have hfold := foldl_add_fin entries
    (fun e => jsIndexOr0
      (fun k => if k ∈ shown then
        some (((lookupAmount facts e.food_id k).mul (orZero e.grams)).div100) else none)
      nid)
    (fun e => specAmount facts e.food_id nid * e.grams.toQ / 100) hcell 0
  unfold computedDietRows
  rw [List.foldl_map]
  refine congrArg some (Eq.trans ?_ (Eq.trans hfold ?_))
  · rfl
  · rw [zero_add]
    rfl

def exEntry : DietRow := { id := "e1", food_id := "apple", name := "Apple", grams := .fin 150 }

def exFact : FactRow := { food_id := "apple", nutrient_id := "cal", amount_per_100g := .fin 52 }

theorem totals_match_spec_witness :
    totalsByNutrientId ["cal"] (computedDietRows [exEntry] [exFact] ["cal"]) "cal"
      = some (.fin (specTotal [exEntry] [exFact] "cal")) :=
  totals_match_spec [exEntry] [exFact] ["cal"] "cal" (by decide) (by decide)
    (by decide) (by decide) (by decide)

/-! ## Targets and the over-max evaluator -/

/-- `targets?.[nutrientId]?.max`: `undefined` when the nutrient has no
entry, otherwise the stored `max` (itself possibly `null`); `== null`
collapses both to "unset". -/
def targetMax (targets : NutrientId → Option Target) (nid : NutrientId) : Option ℚ :=
  match targets nid with
  | some t => t.max
  | none => none

/-- `exceedsMax` from part_000: `false` when `max == null`, otherwise
`(totalsByNutrientId[nutrientId] || 0) > max`. -/
def exceedsMax (targets : NutrientId → Option Target)
    (totals : NutrientId → Option JSNum) (nid : NutrientId) : Bool :=
  match targetMax targets nid with
  | none => false
  | some m => (jsIndexOr0 totals nid).gtQ m

theorem exceedsMax_char (targets : NutrientId → Option Target)
    (totals : NutrientId → Option JSNum) (nid : NutrientId) (t : ℚ)
    (ht : totals nid = some (.fin t)) :
    exceedsMax targets totals nid = true
      ↔ ∃ m, targetMax targets nid = some m ∧ m < t := by
  unfold exceedsMax
  cases hmx : targetMax targets nid with
  | none => simp
  | some m =>
    have hidx : jsIndexOr0 totals nid = .fin t := by
      unfold jsIndexOr0
      rw [ht]
      exact orZero_fin t
    rw [hidx]
    simp [JSNum.gtQ]

/-- C2: for every nutrient id and column total, the over-max warning is
true iff the nutrient's max target is set and the total strictly exceeds
it; a null max never warns, and a total exactly equal to max does not
warn (the strict inequality in the right-hand side). -/
theorem exceedsMax_iff_strict (targets : NutrientId → Option Target)
    (totals : NutrientId → Option JSNum) (nid : NutrientId) (t : ℚ)
    (ht : totals nid = some (.fin t)) :
    exceedsMax targets totals nid = true
      ↔ ∃ m, targetMax targets nid = some m ∧ m < t :=
  exceedsMax_char targets totals nid t ht

def exTargets : NutrientId → Option Target :=
  fun nid => if nid = "cal" then some { goal := some 100, max := some 150 } else none

theorem exceedsMax_iff_strict_witness :
    exceedsMax exTargets (fun nid => if nid = "cal" then some (.fin 167) else none) "cal" = true
      ↔ ∃ m,
          targetMax exTargets "cal" = some m ∧ m < 167 :=
  exceedsMax_iff_strict exTargets
    (fun nid => if nid = "cal" then some (.fin 167) else none) "cal" 167 (by decide)

/-! ## The amount-fact fetch effect -/

/-- The fetch-related component state: `foodNutrientsRows`,
`foodNutrientsError`, `foodNutrientsLoading`. -/
structure ResolverState where
  foodNutrientsRows : List FactRow
  foodNutrientsError : String
  foodNutrientsLoading : Bool
deriving DecidableEq

/-- The resolution branch of the amount-fact effect (part_000 lines
219-228): on error, set the message and set the rows to `[]`; on success,
store the returned rows; either way clear the loading flag. -/
def resolveOutcome (s : ResolverState) (out : Except String (List FactRow)) : ResolverState :=
  match out with
  | .error e =>
    { foodNutrientsRows := [], foodNutrientsError := e, foodNutrientsLoading := false }
  | .ok data =>
    { foodNutrientsRows := data, foodNutrientsError := s.foodNutrientsError,
      foodNutrientsLoading := false }

theorem mul_zero_left_orZero (x : JSNum) :
    orZero (((JSNum.fin 0).mul x).div100) = .fin 0 := by
  cases x <;> simp [JSNum.mul, JSNum.div100, orZero, JSNum.truthy]

def exCachedResolver : ResolverState :=
  { foodNutrientsRows := [exFact], foodNutrientsError := "", foodNutrientsLoading := true }

/-- C3 counterexample: resolving a failed fetch from a state whose cache
holds a fact leaves an empty cache, not the previous one — the claim that
previously cached facts are left intact is false on the code. -/
theorem fetch_error_clears_cache_counterexample :
    (resolveOutcome exCachedResolver (.error "network down")).foodNutrientsRows = []
      ∧ (resolveOutcome exCachedResolver (.error "network down")).foodNutrientsRows
          ≠ exCachedResolver.foodNutrientsRows := by
  refine ⟨rfl, ?_⟩
  decide

/-- C3 (amended): on a failed amount-fact fetch the error is surfaced,
but the cached rows are cleared to `[]` rather than retained; aggregation
after the failure therefore runs against an emptied cache, and every
shown column total is `0` regardless of the entries. -/
theorem fetch_failure_empties_cache (s : ResolverState) (e : String)
    (entries : List DietRow) (shown : List NutrientId) (nid : NutrientId)
    (hnd : shown.Nodup) (hmem : nid ∈ shown) :
    (resolveOutcome s (.error e)).foodNutrientsError = e
      ∧ (resolveOutcome s (.error e)).foodNutrientsRows = []
      ∧ totalsByNutrientId shown
          (computedDietRows entries (resolveOutcome s (.error e)).foodNutrientsRows shown) nid
          = some (.fin 0) := by
  refine ⟨rfl, rfl, ?_⟩
  rw [totalsByNutrientId_apply shown _ nid hnd hmem]
  have hcell : ∀ x ∈ entries,
      jsIndexOr0
        (fun k => if k ∈ shown then
          some (((lookupAmount [] x.food_id k).mul (orZero x.grams)).div100) else none)
        nid = .fin ((fun _ => (0 : ℚ)) x) := by
    intro x _
    unfold jsIndexOr0
    simp only [if_pos hmem]
    exact mul_zero_left_orZero (orZero x.grams)
  have hfold := foldl_add_fin entries
    (fun x => jsIndexOr0
      (fun k => if k ∈ shown then
        some (((lookupAmount [] x.food_id k).mul (orZero x.grams)).div100) else none)
      nid)
    (fun _ => (0 : ℚ)) hcell 0
  show some (List.foldl _ _ (computedDietRows entries [] shown)) = _
  unfold computedDietRows
  rw [List.foldl_map]
  refine congrArg some (Eq.trans ?_ (Eq.trans hfold ?_))
  · rfl
  · simp

theorem fetch_failure_empties_cache_witness :
    (resolveOutcome exCachedResolver (.error "boom")).foodNutrientsError = "boom"
      ∧ (resolveOutcome exCachedResolver (.error "boom")).foodNutrientsRows = []
      ∧ totalsByNutrientId ["cal"]
          (computedDietRows [exEntry]
            (resolveOutcome exCachedResolver (.error "boom")).foodNutrientsRows ["cal"]) "cal"
          = some (.fin 0) :=
  fetch_failure_empties_cache exCachedResolver "boom" [exEntry] ["cal"] "cal"
    (by decide) (by decide)

/-! ## Last-request-wins discipline of the fetch effect -/

/-- The whole fetch subsystem: the resolver state, a fresh-id counter for
fetches, and the id of the one fetch whose closed-over `cancelled` flag
is still false (none when every issued fetch has been cancelled or the
last effect issued no fetch). -/
structure FetchSystem where
  resolver : ResolverState
  nextId : Nat
  active : Option Nat
deriving DecidableEq

/-- One rerun of the amount-fetch effect (part_000 lines 198-234) caused
by a change of the interest set.  React first runs the previous effect's
cleanup, setting its `cancelled` flag (the active id is dropped); the new
body then either clears the rows and issues no fetch (empty interest set)
or clears the error, sets loading, and issues a fetch with a fresh id. -/
def startEffect (s : FetchSystem) (foodIds : List FoodId)
    (nutrientIds : List NutrientId) : FetchSystem :=
  if foodIds = [] ∨ nutrientIds = [] then
    { resolver :=
        { foodNutrientsRows := [],
          foodNutrientsError := s.resolver.foodNutrientsError,
          foodNutrientsLoading := s.resolver.foodNutrientsLoading },
      nextId := s.nextId, active := none }
  else
    { resolver :=
        { foodNutrientsRows := s.resolver.foodNutrientsRows,
          foodNutrientsError := "", foodNutrientsLoading := true },
      nextId := s.nextId + 1, active := some s.nextId }

/-- An externally observable event of the fetch subsystem. -/
inductive FetchEvent where
  | interest (foodIds : List FoodId) (nutrientIds : List NutrientId)
  | resolve (fid : Nat) (out : Except String (List FactRow))

/-- Event semantics: an interest-set change reruns the effect; a fetch
resolution applies its outcome only when the fetch's `cancelled` flag is
still unset (`if (cancelled) return;`), i.e. only for the most recently
issued fetch. -/
def fetchStep (s : FetchSystem) (ev : FetchEvent) : FetchSystem :=
  match ev with
  | .interest f n => startEffect s f n
  | .resolve fid out =>
    if s.active = some fid then { s with resolver := resolveOutcome s.resolver out } else s

/-- C4: from any state, issuing fetch A for a non-empty interest set S1,
then fetch B for S2 before A resolves, then resolving B and finally
resolving A (out of order) leaves B's rows in the cache: the superseded
fetch A never overwrites it. -/
theorem superseded_fetch_never_overwrites (s : FetchSystem)
    (f1 f2 : List FoodId) (n1 n2 : List NutrientId) (rA rB : List FactRow)
    (h1f : f1 ≠ []) (h1n : n1 ≠ []) (h2f : f2 ≠ []) (h2n : n2 ≠ []) :
    (fetchStep (fetchStep (fetchStep (fetchStep s (.interest f1 n1)) (.interest f2 n2))
        (.resolve (s.nextId + 1) (.ok rB)))
      (.resolve s.nextId (.ok rA))).resolver.foodNutrientsRows = rB := by
  have hcond1 : ¬(f1 = [] ∨ n1 = []) := not_or.mpr ⟨h1f, h1n⟩
  have hcond2 : ¬(f2 = [] ∨ n2 = []) := not_or.mpr ⟨h2f, h2n⟩
  have hne : ¬(some (s.nextId + 1) = some s.nextId) :=
    fun h => Nat.succ_ne_self s.nextId (Option.some.inj h)
  have e1 : fetchStep s (.interest f1 n1)
      = ⟨⟨s.resolver.foodNutrientsRows, "", true⟩, s.nextId + 1, some s.nextId⟩ := by
    show startEffect s f1 n1 = _
    unfold startEffect
    rw [if_neg hcond1]
  rw [e1]
  have e2 : fetchStep
      (⟨⟨s.resolver.foodNutrientsRows, "", true⟩, s.nextId + 1, some s.nextId⟩ : FetchSystem)
      (.interest f2 n2)
      = ⟨⟨s.resolver.foodNutrientsRows, "", true⟩, s.nextId + 2, some (s.nextId + 1)⟩ := by
    show startEffect _ f2 n2 = _
    unfold startEffect
    rw [if_neg hcond2]
  rw [e2]
  have e3 : fetchStep
      (⟨⟨s.resolver.foodNutrientsRows, "", true⟩, s.nextId + 2, some (s.nextId + 1)⟩ : FetchSystem)
      (.resolve (s.nextId + 1) (.ok rB))
      = ⟨⟨rB, "", false⟩, s.nextId + 2, some (s.nextId + 1)⟩ := by
    simp [fetchStep, resolveOutcome]
  rw [e3]
  simp [fetchStep, hne]

def exFetchSystem : FetchSystem :=
  { resolver :=
      { foodNutrientsRows := [], foodNutrientsError := "", foodNutrientsLoading := false },
    nextId := 0, active := none }

theorem superseded_fetch_never_overwrites_witness :
    (fetchStep (fetchStep (fetchStep (fetchStep exFetchSystem (.interest ["apple"] ["cal"]))
        (.interest ["banana"] ["cal"]))
        (.resolve (exFetchSystem.nextId + 1) (.ok [exFact])))
      (.resolve exFetchSystem.nextId (.ok []))).resolver.foodNutrientsRows = [exFact] :=
  superseded_fetch_never_overwrites exFetchSystem ["apple"] ["banana"] ["cal"] ["cal"] [] [exFact]
    (by decide) (by decide) (by decide) (by decide)

/-! ## The target store -/

/-- The two editable fields of a target. -/
inductive TargetField where
  | goal
  | max
deriving DecidableEq

/-- The read pattern `targets?.[nutrientId]?.field ?? null`: a missing
entry and a stored `null` both read as unset. -/
def readField (targets : NutrientId → Option Target) (nid : NutrientId)
    (f : TargetField) : Option ℚ :=
  match targets nid, f with
  | some t, .goal => t.goal
  | some t, .max => t.max
  | none, _ => none

/-- The other field. -/
def otherField : TargetField → TargetField
  | .goal => .max
  | .max => .goal

/-- `setTarget` from part_000 (lines 320-330): spreads the previous map,
rebuilding the edited nutrient's entry from `prev?.[nid]?.goal ?? null`
and `prev?.[nid]?.max ?? null` and overriding the edited field with
`safeNum(value)`. -/
def setTarget (targets : NutrientId → Option Target) (nid : NutrientId)
    (field : TargetField) (value : JSInput) : NutrientId → Option Target :=
  let n := safeNum value
  let newT : Target :=
    match field with
    | .goal => { goal := n, max := readField targets nid .max }
    | .max => { goal := readField targets nid .goal, max := n }
  fun k => if k = nid then some newT else targets k

/-- C5: `setTarget` stores the parsed number when the input parses to a
finite number and `null` otherwise (NaN is not even representable in the
stored field), leaves the other field of that nutrient's target reading
unchanged, and leaves every other nutrient's entry untouched. -/
theorem setTarget_stores_parsed (targets : NutrientId → Option Target)
    (nid : NutrientId) (field : TargetField) (value : JSInput) :
    (readField (setTarget targets nid field value) nid field
        = match toNumber value with
          | .fin q => some q
          | _ => none)
      ∧ readField (setTarget targets nid field value) nid (otherField field)
          = readField targets nid (otherField field)
      ∧ ∀ k, k ≠ nid → setTarget targets nid field value k = targets k := by
  refine ⟨?_, ?_, ?_⟩
  · cases field <;> simp [setTarget, readField, safeNum]
  · cases field <;> simp [setTarget, readField, otherField]
  · intro k hk
    simp [setTarget, if_neg hk]

def exTargets2 : NutrientId → Option Target :=
  fun nid => if nid = "protein" then some { goal := some 50, max := some 120 } else none

theorem setTarget_stores_parsed_witness :
    setTarget exTargets2 "cal" TargetField.goal (.strFin 200) "protein"
      = exTargets2 "protein" :=
  (setTarget_stores_parsed exTargets2 "cal" TargetField.goal (.strFin 200)).2.2 "protein"
    (by decide)

/-! ## Default seeding and reset -/

/-- The seeding loop shared by the nutrients-load effect (lines 135-142)
and `resetTargetsToDefaults` (lines 332-341):
`seeded[n.id] = { goal: safeNum(n.default_goal), max: safeNum(n.default_max) }`. -/
def seedTargets (nutrients : List Nutrient) : NutrientId → Option Target :=
  nutrients.foldl
    (fun m n => fun k =>
      if k = n.id then some { goal := safeNum n.default_goal, max := safeNum n.default_max }
      else m k)
    (fun _ => none)

/-- `resetTargetsToDefaults` from part_000: replaces the whole target map
with a freshly seeded one, ignoring the previous targets entirely. -/
def resetTargetsToDefaults (nutrients : List Nutrient)
    (_prev : NutrientId → Option Target) : NutrientId → Option Target :=
  seedTargets nutrients

/-- The last catalog row carrying a given nutrient id (later rows
overwrite earlier ones in the seeding loop). -/
def lastNutrientWithId (nutrients : List Nutrient) (nid : NutrientId) : Option Nutrient :=
  nutrients.foldl (fun acc n => if n.id = nid then some n else acc) none

theorem seedTargets_apply (nutrients : List Nutrient) (nid : NutrientId) :
    seedTargets nutrients nid
      = (lastNutrientWithId nutrients nid).map
          (fun n => { goal := safeNum n.default_goal, max := safeNum n.default_max }) := by
  suffices H : ∀ (m : NutrientId → Option Target) (acc : Option Nutrient),
      m nid = acc.map
        (fun n => { goal := safeNum n.default_goal, max := safeNum n.default_max }) →
      (nutrients.foldl
          (fun m n => fun k =>
            if k = n.id then
              some { goal := safeNum n.default_goal, max := safeNum n.default_max }
            else m k) m) nid
        = (nutrients.foldl (fun acc n => if n.id = nid then some n else acc) acc).map
            (fun n => { goal := safeNum n.default_goal, max := safeNum n.default_max }) by
    exact H (fun _ => none) none rfl
  intro m acc hma
  induction nutrients generalizing m acc with
  | nil => simpa using hma
  | cons n tl ih =>
    simp only [List.foldl_cons]
    apply ih
    by_cases h : n.id = nid
    · show (if nid = n.id then _ else m nid) = _
      rw [if_pos h.symm, if_pos h]
      rfl
    · show (if nid = n.id then _ else m nid) = _
      rw [if_neg (fun hh => h hh.symm), if_neg h]
      exact hma

def exNutNull : Nutrient :=
  { id := "n1", key := "k1", display_name := "N1", unit := "g", info_text := none,
    default_goal := .nullv, default_max := .nullv }

/-- C6 counterexample: for a catalog row whose defaults are the DB value
`null` (the representation of a missing default), the reset seeds
`goal = 0` — because `Number(null) = 0` is finite — not `null` as the
claim states. -/
theorem reset_null_default_counterexample :
    readField (resetTargetsToDefaults [exNutNull] (fun _ => none)) "n1" TargetField.goal
        = some 0
      ∧ readField (resetTargetsToDefaults [exNutNull] (fun _ => none)) "n1" TargetField.goal
          ≠ none := by
  refine ⟨?_, ?_⟩ <;> decide

/-- C6 (amended): `resetTargetsToDefaults` replaces the entire target map
with one seeded from the catalog's defaults, ignoring the prior state, so
it is idempotent and state-independent; each nutrient id maps to the
parsed defaults of its last catalog row.  However only an absent
(`undefined`) or unparsable default seeds `null`; a `null`-valued default
(the DB representation of "no default") seeds `0`, since
`Number(null) = 0`. -/
theorem reset_seeds_idempotent (nutrients : List Nutrient)
    (prev prev2 : NutrientId → Option Target) (nid : NutrientId) :
    resetTargetsToDefaults nutrients prev nid = resetTargetsToDefaults nutrients prev2 nid
      ∧ resetTargetsToDefaults nutrients (resetTargetsToDefaults nutrients prev) nid
          = resetTargetsToDefaults nutrients prev nid
      ∧ resetTargetsToDefaults nutrients prev nid
          = (lastNutrientWithId nutrients nid).map
              (fun n => { goal := safeNum n.default_goal, max := safeNum n.default_max })
      ∧ safeNum .nullv = some 0
      ∧ safeNum .undefv = none :=
  ⟨rfl, rfl, seedTargets_apply nutrients nid, rfl, rfl⟩

/-! ## Default column selection -/

/-- `PREFERRED_KEYS` from part_000 (lines 17-37). -/
def PREFERRED_KEYS : List String :=
  ["calories", "energy_kcal", "protein", "fat", "total_fat", "carbs", "fiber", "sugar",
   "cholesterol", "omega_3", "omega_6", "sodium", "potassium", "vitamin_c", "vitamin_a",
   "magnesium", "iron", "b12", "folate"]

/-- `new Map(list.map(n => [n.key, n.id]))`: key-to-id lookup, later rows
overwriting earlier ones. -/
def idByKey (list : List Nutrient) : String → Option NutrientId :=
  list.foldl (fun m n => fun k => if k = n.key then some n.id else m k) (fun _ => none)

/-- The default-columns computation of the nutrients-load effect (lines
112-123): ids of preferred keys present in the catalog (`if (id)` — a
truthy id — guards the push), else the first 10 catalog rows, the result
sliced to at most 12 entries. -/
def initialShown (list : List Nutrient) : List NutrientId :=
  let m := idByKey list
  let preferredIds : List NutrientId := PREFERRED_KEYS.foldl
    (fun acc k =>
      match m k with
      | some i => if i ≠ "" then acc ++ [i] else acc
      | none => acc)
    []
  let fallback := (list.take 10).map (fun n => n.id)
  (if preferredIds = [] then fallback else preferredIds).take 12

theorem idByKey_mem_aux (list : List Nutrient) (k : String) (i : NutrientId) :
    ∀ (m : String → Option NutrientId),
      (list.foldl (fun m n => fun k => if k = n.key then some n.id else m k) m) k = some i →
      (∃ n, n ∈ list ∧ n.id = i ∧ n.key = k) ∨ m k = some i := by
  induction list with
  | nil => exact fun m h => Or.inr h
  | cons n tl ih =>
    intro m h
    simp only [List.foldl_cons] at h
    rcases ih (fun k2 => if k2 = n.key then some n.id else m k2) h with hex | hacc
    · obtain ⟨n2, hn2, hid, hkey⟩ := hex
      exact Or.inl ⟨n2, List.mem_cons_of_mem n hn2, hid, hkey⟩
    · by_cases hk : k = n.key
      · have hsome : some n.id = some i := by simpa [hk] using hacc
        exact Or.inl ⟨n, List.mem_cons_self n tl, Option.some.inj hsome, hk.symm⟩
      · have hrest : m k = some i := by simpa [hk] using hacc
        exact Or.inr hrest

theorem idByKey_mem (list : List Nutrient) (k : String) (i : NutrientId)
    (hki : idByKey list k = some i) : ∃ n, n ∈ list ∧ n.id = i ∧ n.key = k := by
  rcases idByKey_mem_aux list k i (fun _ => none) hki with h | h
  · exact h
  · exact absurd h (by simp)

theorem push_foldl_filterMap (ks : List String) (m : String → Option NutrientId)
    (hm : ∀ k i, m k = some i → i ≠ "") (acc : List NutrientId) :
    ks.foldl
      (fun acc k =>
        match m k with
        | some i => if i ≠ "" then acc ++ [i] else acc
        | none => acc)
      acc = acc ++ ks.filterMap m := by
  induction ks generalizing acc with
  | nil => simp
  | cons k tl ih =>
    simp only [List.foldl_cons, List.filterMap_cons]
    cases hk : m k with
    | none => exact ih acc
    | some i =>
      show tl.foldl
          (fun acc k =>
            match m k with
            | some i => if i ≠ "" then acc ++ [i] else acc
            | none => acc)
          (if i ≠ "" then acc ++ [i] else acc)
        = acc ++ (i :: List.filterMap m tl)
      rw [if_pos (hm k i hk), ih]
      simp

/-- C7: for every loaded catalog whose ids are truthy (non-empty), the
initial visible columns are exactly the ids of the preferred keys that
resolve in the catalog, in preferred-list order; when no preferred key
resolves, the first 10 catalog rows (the load query orders the list by
display name); in all cases capped at 12 columns. -/
theorem initialShown_spec (list : List Nutrient) (h : ∀ n ∈ list, n.id ≠ "") :
    initialShown list
        = (if PREFERRED_KEYS.filterMap (idByKey list) = []
            then (list.take 10).map (fun n => n.id)
            else PREFERRED_KEYS.filterMap (idByKey list)).take 12
      ∧ (initialShown list).length ≤ 12 := by
  have hm : ∀ k i, idByKey list k = some i → i ≠ "" := by
    intro k i hki
    obtain ⟨n, hn, hni, _⟩ := idByKey_mem list k i hki
    exact fun hi => h n hn (hni.trans hi)
  have hpf := push_foldl_filterMap PREFERRED_KEYS (idByKey list) hm []
  have hdef : initialShown list
      = (if PREFERRED_KEYS.filterMap (idByKey list) = []
          then (list.take 10).map (fun n => n.id)
          else PREFERRED_KEYS.filterMap (idByKey list)).take 12 := by
    simp only [initialShown]
    rw [hpf]
    simp
  refine ⟨hdef, ?_⟩
  rw [hdef, List.length_take]
  exact min_le_left 12 _

def exNutProtein : Nutrient :=
  { id := "p1", key := "protein", display_name := "Protein", unit := "g", info_text := none,
    default_goal := .undefv, default_max := .undefv }

theorem initialShown_spec_witness :
    initialShown [exNutProtein]
        = (if PREFERRED_KEYS.filterMap (idByKey [exNutProtein]) = []
            then (List.take 10 [exNutProtein]).map (fun n => n.id)
            else PREFERRED_KEYS.filterMap (idByKey [exNutProtein])).take 12
      ∧ (initialShown [exNutProtein]).length ≤ 12 :=
  initialShown_spec [exNutProtein] (by decide)

/-! ## Display rounding -/

/-- JS `Math.round`: the nearest integer, ties toward positive infinity. -/
def mathRound (x : ℚ) : ℤ := ⌊x + 1 / 2⌋

/-- `round` from part_000 (lines 41-45) at the default 2 digits:
`Math.round(n * 100) / 100`, with a `null`/NaN guard returning `0`;
`Math.round(±Infinity) = ±Infinity`. -/
def round (n : Option JSNum) : JSNum :=
  match n with
  | none => .fin 0
  | some .nan => .fin 0
  | some (.fin q) => .fin ((mathRound (q * 100) : ℚ) / 100)
  | some .inf => .inf
  | some .ninf => .ninf

/-- Rounding half away from zero at two decimal digits, as the spec's
words prescribe for display rounding; stated for comparison with the
code's rounding. -/
def specRoundHalfAwayFromZero (q : ℚ) : ℚ :=
  if 0 ≤ q then (⌊q * 100 + 1 / 2⌋ : ℚ) / 100 else -((⌊-(q * 100) + 1 / 2⌋ : ℚ) / 100)

/-- C8 counterexample: at the half-way value `-0.005` the code displays
`0` — `Math.round` sends halves toward positive infinity — while
round-half-away-from-zero yields `-0.01`; display rounding is therefore
not round-half-away-from-zero on every value. -/
theorem round_negative_half_counterexample :
    round (some (.fin (-(1 : ℚ) / 200))) = .fin 0
      ∧ specRoundHalfAwayFromZero (-(1 : ℚ) / 200) = -(1 : ℚ) / 100
      ∧ (0 : ℚ) ≠ -(1 : ℚ) / 100 := by
  refine ⟨?_, ?_, by norm_num⟩
  · show JSNum.fin ((mathRound (-(1 : ℚ) / 200 * 100) : ℚ) / 100) = .fin 0
    norm_num [mathRound]
  · unfold specRoundHalfAwayFromZero
    rw [if_neg (by norm_num)]
    norm_num

/-- C8 (amended): display rounding is to 2 decimal digits with halves
rounded toward positive infinity (`Math.round`), which coincides with
round-half-away-from-zero on every non-negative value; and the over-max
comparison is performed on the full-precision total, not on the rounded
display value. -/
theorem round_nonneg_agrees_and_threshold_exact (q : ℚ) (hq : 0 ≤ q)
    (targets : NutrientId → Option Target) (totals : NutrientId → Option JSNum)
    (nid : NutrientId) (t m : ℚ)
    (ht : totals nid = some (.fin t)) (hm : targetMax targets nid = some m) :
    round (some (.fin q)) = .fin (specRoundHalfAwayFromZero q)
      ∧ (exceedsMax targets totals nid = true ↔ m < t) := by
  constructor
  · show JSNum.fin ((mathRound (q * 100) : ℚ) / 100) = .fin (specRoundHalfAwayFromZero q)
    unfold specRoundHalfAwayFromZero mathRound
    rw [if_pos hq]
  · rw [exceedsMax_char targets totals nid t ht]
    constructor
    · rintro ⟨m2, hm2, hlt⟩
      rw [hm] at hm2
      exact (Option.some.inj hm2) ▸ hlt
    · intro hlt
      exact ⟨m, hm, hlt⟩

theorem round_nonneg_agrees_and_threshold_exact_witness :
    round (some (.fin (3 : ℚ))) = .fin (specRoundHalfAwayFromZero 3)
      ∧ (exceedsMax exTargets
            (fun nid => if nid = "cal" then some (.fin 167) else none) "cal" = true
          ↔ (150 : ℚ) < 167) :=
  round_nonneg_agrees_and_threshold_exact 3 (by norm_num) exTargets
    (fun nid => if nid = "cal" then some (.fin 167) else none) "cal" 167 150
    (by decide) (by decide)

/-! ## Diet-ledger actions -/

/-- The name resolution of `addFoodToDiet`:
`foods.find(f => String(f.id) === String(selectedFoodId))` followed by
`food?.name || "Unknown food"` (an empty name is falsy). -/
def dietName (foods : List Food) (fid : String) : String :=
  match foods.find? (fun f => f.id = fid) with
  | some f => if f.name = "" then "Unknown food" else f.name
  | none => "Unknown food"

/-- The component state read and written by `addFoodToDiet`. -/
structure AddFoodState where
  dietRows : List DietRow
  foods : List Food
  selectedFoodId : String
  gramsToAdd : JSInput
deriving DecidableEq

/-- `addFoodToDiet` from part_000 (lines 284-307): return unchanged when
no food is selected or `Number(gramsToAdd)` is not a positive finite
number; otherwise append one row — whatever the catalog says about the
selected id — and reset the selection and the grams input.  The generated
row id (`crypto.randomUUID()`) is passed in as `newId`. -/
def addFoodToDiet (s : AddFoodState) (newId : String) : AddFoodState :=
  if s.selectedFoodId = "" then s
  else
    match toNumber s.gramsToAdd with
    | .fin g =>
      if g ≤ 0 then s
      else
        { dietRows := s.dietRows ++
            [{ id := newId, food_id := s.selectedFoodId,
               name := dietName s.foods s.selectedFoodId, grams := .fin g }],
          foods := s.foods, selectedFoodId := "", gramsToAdd := .numv (.fin 100) }
    | _ => s

def exAddState : AddFoodState :=
  { dietRows := [], foods := [], selectedFoodId := "f1", gramsToAdd := .numv (.fin 100) }

/-- C9 counterexample: with an empty catalog (so the selected id "f1"
references no known food), a non-empty selection and valid grams, the
claim requires the creation to be rejected with the ledger unchanged; the
code instead appends an entry named "Unknown food". -/
theorem addFood_unknown_food_counterexample :
    (addFoodToDiet exAddState "row1").dietRows
        = [{ id := "row1", food_id := "f1", name := "Unknown food", grams := .fin 100 }]
      ∧ (addFoodToDiet exAddState "row1").dietRows ≠ exAddState.dietRows := by
  refine ⟨?_, ?_⟩ <;> decide

/-- C9 (amended): entry creation is rejected — the state is unchanged —
when no food is selected or the grams input is not a positive finite
number; a non-empty `foodId` unknown to the catalog is NOT rejected: with
valid grams exactly one entry with those grams is appended, its name
resolved from the catalog or the placeholder "Unknown food". -/
theorem addFoodToDiet_validation (s : AddFoodState) (newId : String) :
    ((s.selectedFoodId = "" ∨ ∀ g, toNumber s.gramsToAdd = .fin g → g ≤ 0) →
        addFoodToDiet s newId = s)
      ∧ ∀ g, s.selectedFoodId ≠ "" → toNumber s.gramsToAdd = .fin g → 0 < g →
          (addFoodToDiet s newId).dietRows
            = s.dietRows ++
              [{ id := newId, food_id := s.selectedFoodId,
                 name := dietName s.foods s.selectedFoodId, grams := .fin g }] := by
  constructor
  · intro h
    by_cases hsel : s.selectedFoodId = ""
    · simp only [addFoodToDiet, if_pos hsel]
    · have h2 : ∀ g, toNumber s.gramsToAdd = .fin g → g ≤ 0 := h.resolve_left hsel
      cases hg : toNumber s.gramsToAdd with
      | fin g => simp only [addFoodToDiet, if_neg hsel, hg, if_pos (h2 g hg)]
      | nan => simp only [addFoodToDiet, if_neg hsel, hg]
      | inf => simp only [addFoodToDiet, if_neg hsel, hg]
      | ninf => simp only [addFoodToDiet, if_neg hsel, hg]
  · intro g hsel hg hpos
    simp only [addFoodToDiet, if_neg hsel, hg, if_neg (not_le.mpr hpos)]

def exAddValid : AddFoodState :=
  { dietRows := [], foods := [{ id := "apple", name := "Apple", price_per_100g := .nullv }],
    selectedFoodId := "apple", gramsToAdd := .numv (.fin 150) }

theorem addFoodToDiet_validation_witness :
    (addFoodToDiet exAddValid "row1").dietRows
      = exAddValid.dietRows ++
        [{ id := "row1", food_id := exAddValid.selectedFoodId,
           name := dietName exAddValid.foods exAddValid.selectedFoodId, grams := .fin 150 }] :=
  (addFoodToDiet_validation exAddValid "row1").2 150 (by decide) (by decide) (by decide)

/-- `updateDietRowGrams` from part_000 (lines 313-318): map over the rows,
replacing the grams of the row whose id matches with `Number(grams)`. -/
def updateDietRowGrams (rows : List DietRow) (rowId : String) (grams : JSInput) :
    List DietRow :=
  rows.map (fun r =>
    if r.id = rowId then
      { id := r.id, food_id := r.food_id, name := r.name, grams := toNumber grams }
    else r)

/-- C10: updating an entry's grams preserves the number and order of
entries; every row keeps its id, food reference and name; a row whose id
differs is entirely unchanged, a row whose id matches changes only its
grams (to `Number(grams)`); and when no row carries the id the ledger is
unchanged. -/
theorem updateDietRowGrams_frame (rows : List DietRow) (rowId : String) (grams : JSInput) :
    (updateDietRowGrams rows rowId grams).length = rows.length
      ∧ (∀ (i : ℕ) (r r2 : DietRow), rows[i]? = some r →
          (updateDietRowGrams rows rowId grams)[i]? = some r2 →
            r2.id = r.id ∧ r2.food_id = r.food_id ∧ r2.name = r.name
              ∧ (r.id ≠ rowId → r2 = r) ∧ (r.id = rowId → r2.grams = toNumber grams))
      ∧ ((∀ r ∈ rows, r.id ≠ rowId) → updateDietRowGrams rows rowId grams = rows) := by
  refine ⟨?_, ?_, ?_⟩
  · simp [updateDietRowGrams]
  · intro i r r2 hr hr2
    unfold updateDietRowGrams at hr2
    rw [List.getElem?_map, hr] at hr2
    have hq := Option.some.inj hr2
    by_cases hid : r.id = rowId
    · simp only [if_pos hid] at hq
      refine ⟨by rw [← hq], by rw [← hq], by rw [← hq], fun hne => absurd hid hne, fun _ => ?_⟩
      rw [← hq]
    · simp only [if_neg hid] at hq
      exact ⟨by rw [← hq], by rw [← hq], by rw [← hq], fun _ => hq.symm,
        fun heq => absurd heq hid⟩
  · intro h
    unfold updateDietRowGrams
    induction rows with
    | nil => rfl
    | cons a tl ih =>
      simp only [List.map_cons]
      rw [if_neg (h a (List.mem_cons_self a tl)),
        ih (fun x hx => h x (List.mem_cons_of_mem a hx))]

def exRows : List DietRow :=
  [{ id := "e1", food_id := "apple", name := "Apple", grams := .fin 150 },
   { id := "e2", food_id := "banana", name := "Banana", grams := .fin 100 }]

theorem updateDietRowGrams_frame_witness :
    updateDietRowGrams exRows "zzz" (.strFin 50) = exRows :=
  (updateDietRowGrams_frame exRows "zzz" (.strFin 50)).2.2 (by decide)

end Nutrition
